import Mathlib

/-!
Verification of the chunk-splitting and report-aggregation core of the
legal-document analysis pipeline (`AI Code/ce2.py`, class
`OptimizedLegalAnalyzer`).  The definitions below are a shallow embedding of
the Python source: each `def` carries a comment pointing at the lines of
`ce2.py` it translates.  Python strings are modelled by `String` (the inputs
of interest are ASCII, where `String.toLower`/`String.toUpper`/`String.trim`/
`String.take` agree with Python's `lower`/`upper`/`strip`/slicing), Python
ints by `Int`, and Python dict-shaped clause records by a structure with the
five validated fields of the `ClauseAnalysis` pydantic model.
-/

/-! ## Python string primitives

The four string operations the aggregator uses are modelled structurally
over the character list of a `String`, so that every definition below is
kernel-computable on concrete inputs. -/

/-- Python `str.lower()`: character-wise lowercasing (`Char.toLower`, which
agrees with Python on ASCII). -/
def pyLower (s : String) : String :=
  ⟨s.data.map Char.toLower⟩

/-- Python `str.upper()`: character-wise uppercasing. -/
def pyUpper (s : String) : String :=
  ⟨s.data.map Char.toUpper⟩

/-- Python `str.strip()`: drop whitespace characters from both ends. -/
def pyStrip (s : String) : String :=
  ⟨((s.data.dropWhile Char.isWhitespace).reverse.dropWhile Char.isWhitespace).reverse⟩

/-- Python `s[:n]`: the first `n` characters. -/
def pyTake (n : Nat) (s : String) : String :=
  ⟨s.data.take n⟩

/-- The five fields of a clause record, exactly the fields of the pydantic
model `ClauseAnalysis` (ce2.py lines 37-42).  `risk_level` is kept as a raw
string because `_aggregate_reports` treats it as one (it re-uppercases and
re-checks it as a safety net against non-conforming input). -/
structure ClauseAnalysis where
  clause_title : String
  clause_summary : String
  risk_level : String
  risk_explanation : String
  page_number : Int
deriving DecidableEq

/-- A final report, the success shape returned by `_aggregate_reports`
(ce2.py lines 231-234): a single summary string and the ranked clause list. -/
structure FinalReport where
  summary : String
  clauses : List ClauseAnalysis
deriving DecidableEq

/-- Result of the analysis pipeline: either an error dictionary (modelled by
its message) or a final report, matching the two dict shapes returned by
`analyze_document` / `_aggregate_reports`. -/
inductive AnalysisResult where
  | error : String → AnalysisResult
  | report : FinalReport → AnalysisResult
deriving DecidableEq

/-- The clause list of a result; an error result carries no clauses. -/
def reportClauses : AnalysisResult → List ClauseAnalysis
  | .error _ => []
  | .report r => r.clauses

/-! ## Chunk splitter

`analyze_document` (ce2.py lines 160-175) builds overlapping windows of up
to 2 pages advancing by 1 page:

    for i in range(0, len(pages), 1):
        chunk_end = min(i + 2, len(pages))
        chunk_pages = pages[i:chunk_end]
        if len(chunk_pages) == 1 and i > 0:
            continue
        chunks.append(chunk_pages)
        if chunk_end >= len(pages):
            break

The loop state at index `i` is determined by the suffix `pages[i:]` together
with whether `i = 0`, so we recurse structurally on that suffix:
`pages[i:] = [p]` is the `len(chunk_pages) == 1` case (emitted only when
`i = 0`, i.e. only as the first chunk, else `continue` skips it and the loop
ends); `pages[i:] = [p, q]` appends `[p, q]` and hits the
`chunk_end >= len(pages)` break; with three or more pages left, `[p, q]` is
appended and the loop advances to `i + 1`. -/
def splitGo {α : Type} (isFirst : Bool) : List α → List (List α)
  | [] => []
  | [p] => if isFirst then [[p]] else []
  | [p, q] => [[p, q]]
  | p :: q :: r :: rest => [p, q] :: splitGo false (q :: r :: rest)

/-- The chunking of `analyze_document` (ce2.py lines 160-175), as a function
of the page list: the loop starts at `i = 0`, i.e. with `isFirst = true`. -/
def splitPages {α : Type} (pages : List α) : List (List α) :=
  splitGo true pages

/-! ## Aggregation -/

/-- Deduplication signature of a clause (ce2.py lines 210-214):

    summary_start = clause.get('clause_summary', '').lower().strip()[:100]
    clause_signature = (summary_start, clause.get('page_number', 0))

Note the operation order: lowercase, then strip, then first 100 characters. -/
def clauseSignature (c : ClauseAnalysis) : String × Int :=
  (pyTake 100 (pyStrip (pyLower c.clause_summary)), c.page_number)

/-- The signature formula exactly as the specification writes it,
`(summary[:100].lower().strip(), page_number)`: first 100 characters, then
lowercase, then strip.  Kept separate from `clauseSignature` (the code's
order of operations) so the two can be compared. -/
def specClaimSignature (c : ClauseAnalysis) : String × Int :=
  (pyStrip (pyLower (pyTake 100 c.clause_summary)), c.page_number)

/-- The severity filter of ce2.py lines 216-217:
`risk_level = clause.get('risk_level', '').upper()` followed by
`risk_level in ['HIGH', 'CRITICAL']`. -/
def riskRetained (c : ClauseAnalysis) : Bool :=
  pyUpper c.risk_level == "HIGH" || pyUpper c.risk_level == "CRITICAL"

/-- The combined filter-and-deduplicate pass of `_aggregate_reports`
(ce2.py lines 204-219).  The two nested `for` loops traverse exactly the
clauses of all reports in arrival order (reports in order, clauses within a
report in order), i.e. the flattening of the report list, with one shared
`seen_clauses` set; the set is modelled by the list of signatures added so
far.  A clause is appended iff its (uppercased) risk level is HIGH or
CRITICAL and its signature is unseen, in which case its signature is added. -/
def collectClauses (seen : List (String × Int)) : List ClauseAnalysis → List ClauseAnalysis
  | [] => []
  | c :: rest =>
    if riskRetained c ∧ clauseSignature c ∉ seen then
      c :: collectClauses (clauseSignature c :: seen) rest
    else
      collectClauses seen rest

/-- Sort priority of a clause (ce2.py lines 221-223):
`priority_order = {'CRITICAL': 0, 'HIGH': 1}` and
`priority_order.get(risk_level.upper(), 2)`. -/
def riskPriority (c : ClauseAnalysis) : Nat :=
  if pyUpper c.risk_level == "CRITICAL" then 0
  else if pyUpper c.risk_level == "HIGH" then 1
  else 2

/-- The sort order of ce2.py lines 222-225: ascending lexicographic order on
the key `(priority, page_number)`.  Python's `list.sort` is a stable sort by
this key; `List.insertionSort` with this total preorder is likewise stable. -/
def sortKeyLe (x y : ClauseAnalysis) : Prop :=
  riskPriority x < riskPriority y ∨
    (riskPriority x = riskPriority y ∧ x.page_number ≤ y.page_number)

instance sortKeyLeDecidable : DecidableRel sortKeyLe := fun x y =>
  inferInstanceAs (Decidable (riskPriority x < riskPriority y ∨
    (riskPriority x = riskPriority y ∧ x.page_number ≤ y.page_number)))

instance : IsTotal ClauseAnalysis sortKeyLe :=
  ⟨fun x y => by unfold sortKeyLe; omega⟩

instance : IsTrans ClauseAnalysis sortKeyLe :=
  ⟨fun x y z hxy hyz => by unfold sortKeyLe at hxy hyz ⊢; omega⟩

/-- Message returned by `_generate_comprehensive_summary` when no clause was
retained (ce2.py line 249). -/
def noHighRiskMsg : String :=
  "No high-risk clauses identified in the document based on the specified criteria."

/-- Number of retained clauses whose uppercased risk level is CRITICAL; this
is the value `risk_counts['CRITICAL']` of ce2.py lines 254-257, with the key
present in the dict exactly when the count is positive. -/
def criticalCount (cs : List ClauseAnalysis) : Nat :=
  (cs.filter fun c => pyUpper c.risk_level == "CRITICAL").length

/-- Number of retained clauses whose uppercased risk level is HIGH, i.e. the
value `risk_counts['HIGH']` of ce2.py lines 254-257. -/
def highCount (cs : List ClauseAnalysis) : Nat :=
  (cs.filter fun c => pyUpper c.risk_level == "HIGH").length

/-- `_generate_comprehensive_summary` (ce2.py lines 246-281).  The
`risk_counts` dict is modelled by `criticalCount`/`highCount` (a key is in
the dict iff its count is positive, and the dict is nonempty iff the clause
list is — every clause inserts some key — so the `if risk_counts:` guard is
always true on the nonempty branch).  `summary_parts` is joined by single
spaces, which is what `" ".join(...)` does. -/
def generateComprehensiveSummary (clauses : List ClauseAnalysis) : String :=
  if clauses.isEmpty then
    noHighRiskMsg
  else
    let critN := criticalCount clauses
    let highN := highCount clauses
    let total := clauses.length
    let header := "Document Analysis: Legal Document (Contract)"
    let riskDesc :=
      (if critN > 0 then [toString critN ++ " critical"] else []) ++
      (if highN > 0 then [toString highN ++ " high-risk"] else [])
    let countsParts :=
      if riskDesc.isEmpty then []
      else ["Identified " ++ toString total ++ " concerning clauses: " ++
            String.intercalate ", " riskDesc ++ "."]
    let assessment :=
      if critN > 0 then
        "This document contains critical issues requiring immediate legal review and likely negotiation before signing."
      else if total > 3 then
        "Multiple high-risk elements present - recommend thorough legal review before proceeding."
      else
        "Document contains some concerning provisions that should be reviewed with legal counsel."
    String.intercalate " " ([header] ++ countsParts ++ [assessment])

/-- `_aggregate_reports` (ce2.py lines 195-237): guard against an empty
report list, collect (filter + deduplicate) in arrival order, stable-sort by
`(priority, page_number)`, truncate to 6, and synthesize the summary from the
retained clauses.  The `try` body is total here, so the `except` branch of
the source is unreachable in the model. -/
def aggregateReports (reports : List (List ClauseAnalysis)) : AnalysisResult :=
  if reports.isEmpty then
    .error "No reports to aggregate"
  else
    let allClauses := collectClauses [] reports.flatten
    let topClauses := (allClauses.insertionSort sortKeyLe).take 6
    .report ⟨generateComprehensiveSummary topClauses, topClauses⟩

/-- Message returned by `analyze_document` when no chunk produced a usable
result (ce2.py line 190). -/
def allChunksFailedMsg : String :=
  "All chunk analyses failed. Check your API quota and document format."

/-- The outcome-collection tail of `analyze_document` (ce2.py lines 179-193).
A chunk outcome is `none` when `_analyze_chunk` returned a falsy dict (empty
response, JSON error, API failure) and `some cs` when it returned a dict with
a `clauses` list `cs` (which `_analyze_chunk` always sets on success).  Only
the `some` outcomes are kept; if none remain the error dict is returned,
otherwise the kept reports are aggregated. -/
def runAggregation (outcomes : List (Option (List ClauseAnalysis))) : AnalysisResult :=
  let successfulReports := outcomes.filterMap id
  if successfulReports.isEmpty then
    .error allChunksFailedMsg
  else
    aggregateReports successfulReports

/-- The report summary as the specification describes it: a deterministic
string built from counts over the retained findings only — the number
retained, the CRITICAL count and the HIGH count — stating the CRITICAL and
HIGH counts when any is positive, then a recommendation from the fixed
decision table: the immediate-legal-review sentence exactly when at least
one retained finding is CRITICAL, otherwise the thorough-review sentence
exactly when more than 3 findings are retained, otherwise the
review-with-counsel sentence; for zero retained findings, the fixed
no-high-risk-clauses message. -/
def summarySpec (total critN highN : Nat) : String :=
  if total = 0 then noHighRiskMsg
  else
    let countsSentence :=
      if critN = 0 ∧ highN = 0 then []
      else ["Identified " ++ toString total ++ " concerning clauses: " ++
            String.intercalate ", "
              ((if critN > 0 then [toString critN ++ " critical"] else []) ++
               (if highN > 0 then [toString highN ++ " high-risk"] else [])) ++ "."]
    let recommendation :=
      if critN > 0 then
        "This document contains critical issues requiring immediate legal review and likely negotiation before signing."
      else if total > 3 then
        "Multiple high-risk elements present - recommend thorough legal review before proceeding."
      else
        "Document contains some concerning provisions that should be reviewed with legal counsel."
    String.intercalate " "
      (["Document Analysis: Legal Document (Contract)"] ++ countsSentence ++ [recommendation])

/-! ## Concrete example clauses used in the scenario theorems -/

/-- A clause whose summary is the letter a, 99 spaces, then the letter b:
its first 100 characters end in the run of spaces. -/
def dupClauseA : ClauseAnalysis :=
  ⟨"Unilateral Amendment", ("a".pushn ' ' 99).push 'b', "HIGH", "one-sided", 1⟩

/-- A clause on the same page whose summary is just the letter a. -/
def dupClauseB : ClauseAnalysis :=
  ⟨"Unilateral Amendment", "a", "HIGH", "one-sided", 1⟩

/-- HIGH-risk clause on page 5 (ranking scenario). -/
def exHigh5 : ClauseAnalysis := ⟨"t1", "s1", "HIGH", "e1", 5⟩

/-- CRITICAL-risk clause on page 1 (ranking scenario). -/
def exCrit1 : ClauseAnalysis := ⟨"t2", "s2", "CRITICAL", "e2", 1⟩

/-- HIGH-risk clause on page 1 (ranking scenario). -/
def exHigh1 : ClauseAnalysis := ⟨"t3", "s3", "HIGH", "e3", 1⟩

/-- CRITICAL-risk clause on page 9 (ranking scenario). -/
def exCrit9 : ClauseAnalysis := ⟨"t4", "s4", "CRITICAL", "e4", 9⟩

/-- A clause whose risk level is the lowercase string high: it passes the
case-insensitive severity filter and is kept verbatim. -/
def lowerHighClause : ClauseAnalysis := ⟨"t", "s", "high", "e", 1⟩

/-! ## Helper lemmas -/

/-- A clause emitted by the filter-and-deduplicate pass was retained by the
severity filter, has a signature not in the incoming seen set, and comes
from the input list. -/
theorem mem_collectClauses {seen : List (String × Int)} {l : List ClauseAnalysis}
    {c : ClauseAnalysis} (h : c ∈ collectClauses seen l) :
    riskRetained c = true ∧ clauseSignature c ∉ seen ∧ c ∈ l := by
  induction l generalizing seen with
  | nil => simp [collectClauses] at h
  | cons x rest ih =>
    rw [collectClauses] at h
    by_cases hx : riskRetained x ∧ clauseSignature x ∉ seen
    · rw [if_pos hx] at h
      rcases List.mem_cons.mp h with hcx | hmem
      · subst hcx
        exact ⟨hx.1, hx.2, List.mem_cons_self _ _⟩
      · obtain ⟨h1, h2, h3⟩ := ih hmem
        exact ⟨h1, fun hc => h2 (List.mem_cons_of_mem _ hc), List.mem_cons_of_mem _ h3⟩
    · rw [if_neg hx] at h
      obtain ⟨h1, h2, h3⟩ := ih h
      exact ⟨h1, h2, List.mem_cons_of_mem _ h3⟩

/-- First-seen-wins: a clause kept by the filter-and-deduplicate pass is the
first clause of the input (in arrival order) that passes the severity filter
and has its signature. -/
theorem collectClauses_head_filter {seen : List (String × Int)} {l : List ClauseAnalysis}
    {c : ClauseAnalysis} (h : c ∈ collectClauses seen l) :
    (l.filter fun x => riskRetained x && decide (clauseSignature x = clauseSignature c)).head?
      = some c := by
  induction l generalizing seen with
  | nil => simp [collectClauses] at h
  | cons x rest ih =>
    rw [collectClauses] at h
    by_cases hx : riskRetained x ∧ clauseSignature x ∉ seen
    · rw [if_pos hx] at h
      rcases List.mem_cons.mp h with hcx | hmem
      · subst hcx
        simp [List.filter_cons, hx.1]
      · have hsig : clauseSignature c ∉ clauseSignature x :: seen :=
          (mem_collectClauses hmem).2.1
        have hne : ¬ clauseSignature x = clauseSignature c := by
          intro he
          exact hsig (he ▸ List.mem_cons_self _ _)
        rw [List.filter_cons]
        simp only [hne, decide_False, Bool.and_false, if_false]
        exact ih hmem
    · rw [if_neg hx] at h
      have hcseen : clauseSignature c ∉ seen := (mem_collectClauses h).2.1
      have hpred : (riskRetained x && decide (clauseSignature x = clauseSignature c)) = false := by
        by_cases hr : riskRetained x
        · have hxin : clauseSignature x ∈ seen := by
            by_contra hni
            exact hx ⟨hr, hni⟩
          have hne : ¬ clauseSignature x = clauseSignature c := by
            intro he
            exact hcseen (he ▸ hxin)
          simp [hne]
        · simp [hr]
      rw [List.filter_cons]
      simp only [hpred, if_false]
      exact ih h

/-- The clauses kept by the filter-and-deduplicate pass have pairwise
distinct signatures, none of which is in the incoming seen set. -/
theorem collectClauses_sig_nodup (seen : List (String × Int)) (l : List ClauseAnalysis) :
    ((collectClauses seen l).map clauseSignature).Nodup ∧
      ∀ s ∈ (collectClauses seen l).map clauseSignature, s ∉ seen := by
  induction l generalizing seen with
  | nil => simp [collectClauses]
  | cons x rest ih =>
    rw [collectClauses]
    by_cases hx : riskRetained x ∧ clauseSignature x ∉ seen
    · rw [if_pos hx]
      obtain ⟨ihn, ihs⟩ := ih (clauseSignature x :: seen)
      refine ⟨?_, ?_⟩
      · rw [List.map_cons, List.nodup_cons]
        refine ⟨fun hmem => ?_, ihn⟩
        exact (ihs _ hmem) (List.mem_cons_self _ _)
      · intro s hs
        rcases List.mem_cons.mp hs with hsx | hmem
        · exact hsx ▸ hx.2
        · exact fun hseen => (ihs _ hmem) (List.mem_cons_of_mem _ hseen)
    · rw [if_neg hx]
      exact ih seen

/-- The clause list of any aggregation result is the first six clauses of the
stable sort of the filtered, deduplicated candidates (in the empty-input
error case both sides are empty). -/
theorem reportClauses_aggregate (reports : List (List ClauseAnalysis)) :
    reportClauses (aggregateReports reports) =
      ((collectClauses [] reports.flatten).insertionSort sortKeyLe).take 6 := by
  unfold aggregateReports
  by_cases h : reports.isEmpty
  · have : reports = [] := List.isEmpty_iff.mp h
    subst this
    simp [reportClauses, collectClauses, List.insertionSort]
  · simp [h, reportClauses]

/-- The code's summary generator agrees, on every clause list, with the
specification's counts-only decision table. -/
theorem generateComprehensiveSummary_eq_spec (cs : List ClauseAnalysis) :
    generateComprehensiveSummary cs
      = summarySpec cs.length (criticalCount cs) (highCount cs) := by
  unfold generateComprehensiveSummary summarySpec
  by_cases h : cs.isEmpty
  · have h0 : cs.length = 0 := by
      rw [List.isEmpty_iff.mp h]
      rfl
    simp [h, h0]
  · have h0 : ¬ cs.length = 0 := by
      rw [List.length_eq_zero]
      exact fun he => h (by simp [he])
    simp only [h, Bool.false_eq_true, if_false, h0]
    by_cases hc : criticalCount cs = 0 <;> by_cases hh : highCount cs = 0 <;>
      simp [hc, hh, Nat.pos_of_ne_zero]

/-- Away from the start of the loop (`isFirst = false`), every emitted chunk
has exactly two pages: the one-page tail is suppressed by the `continue`. -/
theorem splitGo_false_mem_length {α : Type} :
    ∀ (l c : List α), c ∈ splitGo false l → c.length = 2
  | [], c, h => by simp [splitGo] at h
  | [p], c, h => by simp [splitGo] at h
  | [p, q], c, h => by
    simp only [splitGo, List.mem_singleton] at h
    rw [h]
    rfl
  | p :: q :: r :: rest, c, h => by
    simp only [splitGo, List.mem_cons] at h
    rcases h with h | h
    · rw [h]
      rfl
    · exact splitGo_false_mem_length (q :: r :: rest) c h

/-! ## Claim theorems -/

set_option maxRecDepth 8000

/-- C1, counterexample: two clauses whose deduplication signature computed as
the claim writes it — `summary[:100].lower().strip()` — is identical (and
which are distinct findings), yet both appear in the final report, because
the code computes the signature as `summary.lower().strip()[:100]` and those
two orders of operations disagree on these summaries. -/
theorem c1_signature_counterexample :
    specClaimSignature dupClauseA = specClaimSignature dupClauseB ∧
    dupClauseA ≠ dupClauseB ∧
    reportClauses (aggregateReports [[dupClauseA, dupClauseB]]) = [dupClauseA, dupClauseB] := by
  decide

/-- C1, amended: with the deduplication signature as the code computes it —
`summary.lower().strip()[:100]`, then the page number — any two retained
findings with identical signature yield at most one survivor in the final
report (the report's signatures are pairwise distinct), and every surviving
finding is the first finding in chunk-arrival order (reports in order,
clauses within each report in order) that passes the severity filter and
carries its signature. -/
theorem c1_dedup_first_seen_wins (reports : List (List ClauseAnalysis)) :
    ((reportClauses (aggregateReports reports)).map clauseSignature).Nodup ∧
    ∀ c ∈ reportClauses (aggregateReports reports),
      (reports.flatten.filter fun x =>
          riskRetained x && decide (clauseSignature x = clauseSignature c)).head? = some c := by
  rw [reportClauses_aggregate]
  constructor
  · have hnodup : ((collectClauses [] reports.flatten).map clauseSignature).Nodup :=
      (collectClauses_sig_nodup [] reports.flatten).1
    have hperm :
        (((collectClauses [] reports.flatten).insertionSort sortKeyLe).map clauseSignature).Perm
          ((collectClauses [] reports.flatten).map clauseSignature) :=
      (List.perm_insertionSort sortKeyLe _).map clauseSignature
    have hsorted := hperm.symm.nodup hnodup
    rw [List.map_take]
    exact (List.take_sublist 6 _).nodup hsorted
  · intro c hc
    have hc1 : c ∈ (collectClauses [] reports.flatten).insertionSort sortKeyLe :=
      List.mem_of_mem_take hc
    have hc2 : c ∈ collectClauses [] reports.flatten :=
      (List.mem_insertionSort sortKeyLe).mp hc1
    exact collectClauses_head_filter hc2

/-- C1, witness for the amended theorem at a one-report input. -/
theorem c1_dedup_first_seen_wins_witness :
    ([[dupClauseB]].flatten.filter fun x =>
        riskRetained x && decide (clauseSignature x = clauseSignature dupClauseB)).head?
      = some dupClauseB :=
  (c1_dedup_first_seen_wins [[dupClauseB]]).2 dupClauseB (by decide)

/-- C2: the findings of every aggregated report are sorted primarily by risk
severity (priority CRITICAL = 0 before priority HIGH = 1) and secondarily by
ascending page number, and the concrete ranking scenario
[HIGH@5, CRITICAL@1, HIGH@1, CRITICAL@9] (distinct signatures) sorts to
[CRITICAL@1, CRITICAL@9, HIGH@1, HIGH@5]. -/
theorem c2_findings_sorted (reports : List (List ClauseAnalysis)) :
    (reportClauses (aggregateReports reports)).Pairwise sortKeyLe ∧
    reportClauses (aggregateReports [[exHigh5, exCrit1, exHigh1, exCrit9]]) =
      [exCrit1, exCrit9, exHigh1, exHigh5] := by
  constructor
  · rw [reportClauses_aggregate]
    exact List.Pairwise.sublist (List.take_sublist 6 _)
      (List.sorted_insertionSort sortKeyLe (collectClauses [] reports.flatten))
  · decide

/-- C3, counterexample: a finding whose risk level is the lowercase string
high passes the case-insensitive severity filter and appears verbatim in the
produced report, so its risk level is neither the string HIGH nor the string
CRITICAL. -/
theorem c3_lowercase_counterexample :
    reportClauses (aggregateReports [[lowerHighClause]]) = [lowerHighClause] ∧
    lowerHighClause.risk_level ≠ "HIGH" ∧ lowerHighClause.risk_level ≠ "CRITICAL" := by
  decide

/-- C3, amended: every finding in the clauses list of a produced report has a
risk level that uppercases to HIGH or to CRITICAL (the filter compares the
uppercased risk level, and the finding is kept with its original casing). -/
theorem c3_risk_filter (reports : List (List ClauseAnalysis)) :
    ∀ c ∈ reportClauses (aggregateReports reports),
      pyUpper c.risk_level = "HIGH" ∨ pyUpper c.risk_level = "CRITICAL" := by
  intro c hc
  rw [reportClauses_aggregate] at hc
  have hc2 : c ∈ collectClauses [] reports.flatten :=
    (List.mem_insertionSort sortKeyLe).mp (List.mem_of_mem_take hc)
  have hr : riskRetained c = true := (mem_collectClauses hc2).1
  simpa [riskRetained] using hr

/-- C3, witness for the amended theorem. -/
theorem c3_risk_filter_witness :
    pyUpper lowerHighClause.risk_level = "HIGH" ∨
      pyUpper lowerHighClause.risk_level = "CRITICAL" :=
  c3_risk_filter [[lowerHighClause]] lowerHighClause (by decide)

/-- C4: the clauses list of every aggregation result has at most 6 findings,
for every input, however many candidates are retained. -/
theorem c4_findings_bounded (reports : List (List ClauseAnalysis)) :
    (reportClauses (aggregateReports reports)).length ≤ 6 := by
  rw [reportClauses_aggregate]
  simp [List.length_take]

/-- C5: the pipeline result is the all-chunks-failed error exactly when every
chunk outcome is a failure; in particular a single successful chunk outcome,
whatever its findings, prevents the error, so per-chunk failures short of
total failure do not abort aggregation. -/
theorem c5_total_failure_error (outcomes : List (Option (List ClauseAnalysis))) :
    runAggregation outcomes = .error allChunksFailedMsg ↔ ∀ o ∈ outcomes, o = none := by
  unfold runAggregation
  by_cases h : (outcomes.filterMap id).isEmpty
  · simp only [h, if_true]
    have hnil : outcomes.filterMap id = [] := List.isEmpty_iff.mp h
    rw [List.filterMap_eq_nil_iff] at hnil
    exact iff_of_true trivial hnil
  · simp only [h, Bool.false_eq_true, if_false]
    constructor
    · intro hagg
      exfalso
      unfold aggregateReports at hagg
      rw [if_neg (by simp [h])] at hagg
      exact AnalysisResult.noConfusion hagg
    · intro hall
      exfalso
      apply h
      rw [List.isEmpty_iff, List.filterMap_eq_nil_iff]
      intro a ha
      rw [hall a ha]
      rfl

/-- C5, witness: both chunk outcomes failing yields the aggregation error. -/
theorem c5_total_failure_error_witness :
    runAggregation [none, none] = .error allChunksFailedMsg :=
  (c5_total_failure_error [none, none]).mpr (by decide)

/-- C6: for a four-page document the splitter produces exactly the three
overlapping two-page chunks, in order, with no trailing single-page chunk. -/
theorem c6_splitter_four_pages {α : Type} (p0 p1 p2 p3 : α) :
    splitPages [p0, p1, p2, p3] = [[p0, p1], [p1, p2], [p2, p3]] := rfl

/-- C7: a chunk with fewer than two pages is emitted only as the sole (hence
first) chunk — if any emitted chunk has fewer than 2 pages then it is the
whole output — and a single-page document yields exactly one one-page chunk. -/
theorem c7_partial_window_only_first {α : Type} :
    (∀ (pages c : List α), c ∈ splitPages pages → c.length < 2 → splitPages pages = [c]) ∧
    ∀ p : α, splitPages [p] = [[p]] := by
  constructor
  · intro pages c hc hlen
    match pages with
    | [] => simp [splitPages, splitGo] at hc
    | [p] =>
      simp only [splitPages, splitGo, if_true, List.mem_singleton] at hc
      rw [hc]
      rfl
    | [p, q] =>
      simp only [splitPages, splitGo, List.mem_singleton] at hc
      rw [hc] at hlen
      simp at hlen
    | p :: q :: r :: rest =>
      simp only [splitPages, splitGo, List.mem_cons] at hc
      rcases hc with hc | hc
      · rw [hc] at hlen
        simp at hlen
      · rw [splitGo_false_mem_length (q :: r :: rest) c hc] at hlen
        simp at hlen
  · intro p
    rfl

/-- C7, witness: a concrete single-page document. -/
theorem c7_partial_window_only_first_witness :
    splitPages [(5 : Nat)] = [[5]] :=
  (c7_partial_window_only_first (α := Nat)).1 [5] [5] (by decide) (by decide)

/-- C8: splitting an empty page sequence returns the empty chunk sequence. -/
theorem c8_empty_pages (α : Type) : splitPages ([] : List α) = [] := rfl

/-- C9: the summary of every produced report is the deterministic
counts-only string of the specification's decision table, applied to the
retained findings: their number, their CRITICAL count and their HIGH count
(so, the no-high-risk message for zero retained findings, and the
recommendation chosen by CRITICAL count positive, else more than 3 retained,
else the counsel sentence). -/
theorem c9_summary_decision_table (reports : List (List ClauseAnalysis)) (r : FinalReport)
    (h : aggregateReports reports = .report r) :
    r.summary = summarySpec r.clauses.length (criticalCount r.clauses) (highCount r.clauses) := by
  unfold aggregateReports at h
  by_cases he : reports.isEmpty
  · rw [if_pos he] at h
    exact AnalysisResult.noConfusion h
  · rw [if_neg he] at h
    have hr := (AnalysisResult.report.injEq _ _).mp h
    rw [← hr]
    exact generateComprehensiveSummary_eq_spec _

/-- C9, witness: a report with no retained findings carries the fixed
no-high-risk message, which the decision table also produces at zero. -/
theorem c9_summary_decision_table_witness :
    (FinalReport.mk noHighRiskMsg []).summary = summarySpec 0 0 0 :=
  c9_summary_decision_table [[]] (FinalReport.mk noHighRiskMsg []) (by decide)

/-- C10: as soon as one chunk outcome is a well-formed response, the pipeline
returns a report and not an error; and if moreover every successful chunk
contributed an empty findings list, the report has an empty clauses list and
the fixed no-high-risk-clauses message as its summary. -/
theorem c10_empty_findings_succeed (outcomes : List (Option (List ClauseAnalysis)))
    (hsome : ∃ cs, some cs ∈ outcomes) :
    (∃ r, runAggregation outcomes = .report r) ∧
    ((∀ cs, some cs ∈ outcomes → cs = []) →
      runAggregation outcomes = .report (FinalReport.mk noHighRiskMsg [])) := by
  obtain ⟨cs, hcs⟩ := hsome
  have hmem : cs ∈ outcomes.filterMap id := by
    rw [List.mem_filterMap]
    exact ⟨some cs, hcs, rfl⟩
  have hne : ¬ (outcomes.filterMap id).isEmpty = true := by
    rw [List.isEmpty_iff]
    intro hnil
    rw [hnil] at hmem
    exact List.not_mem_nil cs hmem
  have hne2 : ¬ (outcomes.filterMap id) = [] := fun hnil => hne (by simp [hnil])
  constructor
  · unfold runAggregation aggregateReports
    rw [if_neg hne, if_neg hne]
    exact ⟨_, rfl⟩
  · intro hall
    have hflat : (outcomes.filterMap id).flatten = [] := by
      rw [List.flatten_eq_nil_iff]
      intro l hl
      obtain ⟨a, ha, hid⟩ := List.mem_filterMap.mp hl
      have haeq : a = some l := hid
      exact hall l (haeq ▸ ha)
    unfold runAggregation aggregateReports
    rw [if_neg hne, if_neg hne, hflat]
    rfl

/-- C10, witness: one successful chunk outcome with an empty findings list
yields the empty report with the fixed message, not an error. -/
theorem c10_empty_findings_succeed_witness :
    runAggregation [some []] = .report (FinalReport.mk noHighRiskMsg []) :=
  (c10_empty_findings_succeed [some []] ⟨[], by decide⟩).2
    (by
      intro cs h
      simpa using h)
